import Mathlib

/-!
Verification of the breed-scraper core of the dog-owner-assistant repository
(`breed_akc.py`) against its specification.  Python strings are modelled as
`List Char` over the ASCII fragment that the scraped data uses; the regexes of
the source are embedded by their meaning on that fragment, and the effectful
operations (network fetches, cache reads and writes) are embedded as pure
functions over an explicit environment that records what each external call
would return.
-/

namespace BreedAkc

/-- Python strings, modelled as lists of characters (ASCII fragment). -/
abbrev Str := List Char

/-- Coerce a Lean string literal into the model. -/
def str (s : String) : Str := s.toList

/-- Python regex class `\s` (ASCII fragment): space, tab, newline, carriage
return, vertical tab, form feed. -/
def isSpaceCh (c : Char) : Bool :=
  c = ' ' || c = '\t' || c = '\n' || c = '\r' || c = Char.ofNat 11 || c = Char.ofNat 12

/-- Python regex class `\w` (ASCII fragment): alphanumeric or underscore. -/
def isWordCh (c : Char) : Bool := c.isAlphanum || c = '_'

def toLowerCh (c : Char) : Char := c.toLower

/-- Python `s.lower()` (ASCII fragment). -/
def lowerStr (s : Str) : Str := s.map toLowerCh

/-- Python substring containment `needle in hay`. -/
def pyIn (needle hay : Str) : Bool := decide (needle <:+: hay)

/-- Python `s.startswith(pre)`. -/
def pyStartsWith (s pre : Str) : Bool := decide (pre <+: s)

/-- Drop leading characters satisfying `p` (one side of Python `strip`). -/
def lstripWhen (p : Char → Bool) (s : Str) : Str := s.dropWhile p

/-- Drop trailing characters satisfying `p` (one side of Python `strip`). -/
def rstripWhen (p : Char → Bool) (s : Str) : Str := (s.reverse.dropWhile p).reverse

/-- Python `s.strip(<class>)`: drop the class from both ends. -/
def stripWhen (p : Char → Bool) (s : Str) : Str := rstripWhen p (lstripWhen p s)

/-- Python `s.strip()` (whitespace). -/
def pyStripWs (s : Str) : Str := stripWhen isSpaceCh s

/-- Python `s.rstrip('/')`: drop every trailing slash. -/
def rstripSlashes (s : Str) : Str := rstripWhen (fun c => c = '/') s

/-- Python `s.strip('-')`. -/
def stripHyphens (s : Str) : Str := stripWhen (fun c => c = '-') s

/-- Python `s.strip('_')`. -/
def stripUnderscores (s : Str) : Str := stripWhen (fun c => c = '_') s

/-- Python `s.split(sep)` for a one-character separator: splits at every
occurrence and keeps empty chunks. -/
def pysplit (sep : Char) : Str → List Str
  | [] => [[]]
  | c :: cs =>
    if c = sep then [] :: pysplit sep cs
    else
      match pysplit sep cs with
      | [] => [[c]]
      | h :: t => (c :: h) :: t

/-- Characters allowed in a URL scheme after the initial letter. -/
def isSchemeCh (c : Char) : Bool := c.isAlphanum || c = '+' || c = '-' || c = '.'

/-- A candidate scheme is nonempty, starts with a letter, and uses scheme
characters only (as `urllib.parse` checks). -/
def schemeOk (pre : Str) : Bool :=
  !pre.isEmpty && (pre.headD ' ').isAlpha && pre.all isSchemeCh

/-- Remove a leading `scheme:` from a URL if present (as `urllib.parse` does). -/
def stripScheme (s : Str) : Str :=
  if (s.takeWhile (fun c => c != ':')).length < s.length &&
      schemeOk (s.takeWhile (fun c => c != ':')) then
    s.drop ((s.takeWhile (fun c => c != ':')).length + 1)
  else s

/-- Remove a leading `//netloc` from a URL if present: everything up to the
next slash (query and fragment have already been cut off). -/
def stripNetloc (s : Str) : Str :=
  match s with
  | '/' :: '/' :: rest => rest.dropWhile (fun c => c != '/')
  | other => other

/-- Models `urlparse(href).path`: cut off the fragment and the query, then the
scheme, then the network location.  Faithful to `urllib.parse` on the URL
shapes that occur here (no params-`;` handling, which the scraper never
relies on). -/
def parsePath (href : Str) : Str :=
  stripNetloc (stripScheme ((href.takeWhile (fun c => c != '#')).takeWhile (fun c => c != '?')))

/-- The literal breeds-index prefix `/dog-breeds/`. -/
def dogBreedsSeg : Str := str "/dog-breeds/"

/-- Meaning of the source regex `^/dog-breeds/[^/]+$`: the prefix followed by
one nonempty slash-free segment (`$` is taken as end-of-string; Python's `$`
would also tolerate one trailing newline, which no stripped href produces). -/
def breedPathRegex (p : Str) : Bool :=
  pyStartsWith p dogBreedsSeg &&
    (!(p.drop 12).isEmpty && !(decide ('/' ∈ p.drop 12)))

/-- The module constant `EXCLUDED_SLUGS`. -/
def EXCLUDED_SLUGS : List Str :=
  [str "page", str "sporting", str "hound", str "working", str "terrier",
   str "toy", str "non-sporting", str "herding", str "group", str "groups",
   str "mix", str "mixed", str "all", str "breeds", str "hypoallergenic",
   str "hairless", str "large", str "small", str "best", str "types",
   str "categories", str "lists", str "filter", str "search"]

/-- Python `s.isdigit()` (ASCII fragment): nonempty, digits only. -/
def pyIsDigit (s : Str) : Bool := !s.isEmpty && s.all Char.isDigit

/-- Character class of the source regex `^[a-z0-9\-]+$`. -/
def slugChar (c : Char) : Bool := c.isLower || c.isDigit || c = '-'

/-- Meaning of the source regex `^[a-z0-9\-]+$` with `$` as end-of-string. -/
def slugRegex (s : Str) : Bool := !s.isEmpty && s.all slugChar

/-- Embeds `_is_valid_breed_url` (breed_akc.py lines 29-78). -/
def isValidBreedUrl (href : Str) : Bool :=
  if href.isEmpty || !pyIn dogBreedsSeg href then false
  else
    let path := rstripSlashes (parsePath href)
    if !breedPathRegex path then false
    else
      match pysplit '/' path with
      | [p0, p1, p2] =>
        if !(decide (p0 = [])) || !(decide (p1 = str "dog-breeds")) then false
        else
          let slug := stripHyphens (lowerStr p2)
          if decide (slug ∈ EXCLUDED_SLUGS) then false
          else if pyIsDigit slug || pyStartsWith slug (str "page") then false
          else if !slugRegex slug then false
          else if slug.length < 3 then false
          else true
      | _ => false

/-- Characters kept by `re.sub(r'[^\w\s\-]', '', ...)`. -/
def keepCh (c : Char) : Bool := isWordCh c || isSpaceCh c || c = '-'

/-- Character class `[\s\-]` collapsed to an underscore by the normalizer. -/
def sepCh (c : Char) : Bool := isSpaceCh c || c = '-'

/-- State machine for `re.sub(r'[\s\-]+', '_', s)`: the flag records whether
the previous character was in the separator class. -/
def collapseSepsAux : Bool → Str → Str
  | _, [] => []
  | prev, c :: cs =>
    if sepCh c then
      if prev then collapseSepsAux true cs else '_' :: collapseSepsAux true cs
    else c :: collapseSepsAux false cs

/-- `re.sub(r'[\s\-]+', '_', s)`: each maximal separator run becomes one
underscore. -/
def collapseSeps (s : Str) : Str := collapseSepsAux false s

/-- Embeds `normalize_breed_name` (breed_akc.py lines 81-90). -/
def normalize_breed_name (name : Str) : Str :=
  stripUnderscores (collapseSeps ((lowerStr name).filter keepCh))

/-- State machine for `re.sub(r'\s+', ' ', s)`: the flag records whether the
previous character was whitespace. -/
def collapseWsAux : Bool → Str → Str
  | _, [] => []
  | prev, c :: cs =>
    if isSpaceCh c then
      if prev then collapseWsAux true cs else ' ' :: collapseWsAux true cs
    else c :: collapseWsAux false cs

/-- The content clean-up of line 337: `re.sub(r'\s+', ' ', s).strip()`. -/
def pyCleanWs (s : Str) : Str := pyStripWs (collapseWsAux false s)

/-- Python `s.title()` (ASCII fragment): a letter is uppercased when the
previous character is not a letter, lowercased otherwise. -/
def pyTitleAux : Bool → Str → Str
  | _, [] => []
  | prev, c :: cs =>
    if c.isAlpha then (if prev then c.toLower else c.toUpper) :: pyTitleAux true cs
    else c :: pyTitleAux false cs

def pyTitle (s : Str) : Str := pyTitleAux false s

/-- Python `s.replace('-', ' ')`, applied characterwise. -/
def hyphenToSpace (c : Char) : Char := if c = '-' then ' ' else c

/-- The module constant `AKC_BASE_URL`. -/
def AKC_BASE_URL : Str := str "https://www.akc.org"

/-- Does the URL carry a scheme, per the `urllib.parse` scheme grammar? -/
def hasScheme (s : Str) : Bool :=
  let pre := s.takeWhile (fun c => c != ':')
  pre.length < s.length && schemeOk pre

/-- Models `urljoin(AKC_BASE_URL, href)` for the href shapes the scraper
meets: an absolute URL is kept, a scheme-relative one gains the base scheme,
an absolute path is appended to the base, a relative path is appended after a
slash (the base has an empty path, so no dot-segment handling is needed). -/
def urljoinAkc (href : Str) : Str :=
  if href.isEmpty then AKC_BASE_URL
  else if hasScheme href then href
  else if pyStartsWith href (str "//") then str "https:" ++ href
  else if pyStartsWith href (str "/") then AKC_BASE_URL ++ href
  else AKC_BASE_URL ++ str "/" ++ href

/-- The empty-link-text fallback of lines 188-191:
`slug = urlparse(href).path.split('/')[-2]; slug.replace('-', ' ').title()`.
The negative index is total here because every validated href's path holds at
least three slash-separated parts. -/
def fallbackDisplayName (href : Str) : Str :=
  let parts := pysplit '/' (parsePath href)
  let slug := parts.getD (parts.length - 2) []
  pyTitle (slug.map hyphenToSpace)

/-- One directory entry: the dict `{display_name, akc_url}` of line 199. -/
structure BreedEntry where
  display_name : Str
  akc_url : Str
deriving DecidableEq

/-- The `breed_map` dict: an insertion-ordered association list whose keys
stay distinct because a key is only ever inserted when absent. -/
abbrev Directory := List (Str × BreedEntry)

/-- Python `breed_map[k]` lookup / `k in breed_map` membership. -/
def dirLookup (m : Directory) (k : Str) : Option BreedEntry :=
  match m.find? (fun e => decide (e.1 = k)) with
  | some e => some e.2
  | none => none

/-- Python `breed_map[k] = v` for a key not yet present: appended at the end. -/
def dirInsertNew (m : Directory) (k : Str) (v : BreedEntry) : Directory :=
  m ++ [(k, v)]

/-- The exceptions the scraper core can actually raise: the `NameError` of
line 204 (`existing` is never assigned) and an OSError from the unguarded
breed-list cache write of line 245. -/
inductive ScrapeErr where
  | nameError
  | writeError
deriving DecidableEq

/-- The insertion step of lines 194-208: normalize the display name, drop the
link when the key is empty, insert when the key is fresh.  On a key collision
the source evaluates `len(existing['display_name'])` with `existing` unbound,
raising `NameError`. -/
def insertBreed (m : Directory) (display_name full_url : Str) :
    Except ScrapeErr Directory :=
  let normalized := normalize_breed_name display_name
  if normalized.isEmpty then .ok m
  else
    match dirLookup m normalized with
    | none => .ok (dirInsertNew m normalized ⟨display_name, full_url⟩)
    | some _ => .error .nameError

/-- One iteration of the link-processing loop (lines 177-208) on a candidate
`(link text, href)` pair that already passed URL validation: URL-based
deduplication, display-name derivation, then the insertion step. -/
def stepLink (seen : List Str) (m : Directory) (lk : Str × Str) :
    Except ScrapeErr (List Str × Directory) :=
  let full_url := urljoinAkc lk.2
  if decide (full_url ∈ seen) then .ok (seen, m)
  else
    let display_name := if lk.1.isEmpty then fallbackDisplayName lk.2 else lk.1
    match insertBreed m display_name full_url with
    | .error e => .error e
    | .ok m2 => .ok (full_url :: seen, m2)

/-- The link-processing loop over one page's validated links. -/
def processLinks (seen : List Str) (m : Directory) :
    List (Str × Str) → Except ScrapeErr (List Str × Directory)
  | [] => .ok (seen, m)
  | lk :: rest =>
    match stepLink seen m lk with
    | .error e => .error e
    | .ok sm => processLinks sm.1 sm.2 rest

/-- The candidate links of one fetched page after `href.strip()` and strict
URL validation (both the container branch and the fallback branch of lines
157-172 filter through `_is_valid_breed_url`). -/
def pageCandidates (links : List (Str × Str)) : List (Str × Str) :=
  (links.map (fun lk => (lk.1, pyStripWs lk.2))).filter (fun lk => isValidBreedUrl lk.2)

/-- The page loop of `_scrape_all_breed_pages`: `none` models a page whose
fetch failed all retries (skipped); `some links` models the candidate links
extracted from a fetched page.  The source fixes the range to pages 1-25;
each list element stands for one of those pages in order. -/
def processPages (seen : List Str) (m : Directory) :
    List (Option (List (Str × Str))) → Except ScrapeErr (List Str × Directory)
  | [] => .ok (seen, m)
  | none :: rest => processPages seen m rest
  | some links :: rest =>
    match processLinks seen m (pageCandidates links) with
    | .error e => .error e
    | .ok sm => processPages sm.1 sm.2 rest

/-- Embeds `_scrape_all_breed_pages` (lines 112-221): crawl the pages, filter
and deduplicate, and return `breed_map`. -/
def scrapeAllBreedPages (pages : List (Option (List (Str × Str)))) :
    Except ScrapeErr Directory :=
  match processPages [] [] pages with
  | .error e => .error e
  | .ok sm => .ok sm.2

/-- The extracted breed profile dict of lines 363-370. -/
structure BreedProfile where
  breed_name : Str
  url : Str
  title : Str
  content : Str
  key_traits : List (Str × Str)
  scraped_at : Str
deriving DecidableEq

/-- A fetched and parsed detail page: the text of its first `h1` (if any) and
the `get_text(strip=True)` of each `body` div in document order, after the
non-content elements of line 300 were decomposed.  A missing `body` behaves
as an empty div list. -/
structure FetchedPage where
  h1 : Option Str
  divTexts : List Str
deriving DecidableEq

/-- What the outside world would answer to each effect the core performs:
the parsed content of the breed-list cache file (`none` = missing or
unparseable JSON), the outcome of each index-page fetch, whether the
breed-list cache write succeeds, the state of the per-key profile cache file
(`none` = missing, `some none` = present but unparseable, `some (some p)` =
parses to `p`), the outcome of the detail-page fetch, whether the profile
cache write succeeds, and the current timestamp string. -/
structure Env where
  listCache : Option Directory
  pages : List (Option (List (Str × Str)))
  listWriteOk : Bool
  profileCache : Option (Option BreedProfile)
  detailPage : Option FetchedPage
  profileWriteOk : Bool
  now : Str

/-- Embeds `get_breed_list` (lines 224-249).  The Bool records whether any
network request was issued.  The cache write of line 245 is not inside a
`try`, so its failure escapes as an exception. -/
def getBreedList (env : Env) : Except ScrapeErr (Directory × Bool) :=
  match env.listCache with
  | some cached => .ok (cached, false)
  | none =>
    match scrapeAllBreedPages env.pages with
    | .error e => .error e
    | .ok m =>
      if m.isEmpty then .ok (m, true)
      else if env.listWriteOk then .ok (m, true)
      else .error .writeError

/-- The navigation keywords of line 326. -/
def navWords : List Str :=
  [str "sign in", str "menu", str "home", str "dog breeds", str "search"]

/-- The acceptance test one div text must pass in the selection loop of lines
313-334: contains the display name case-insensitively, length strictly
between 150 and 1000, no mission-statement marker, and at most two of the
navigation keywords. -/
def blockOk (displayName : Str) (t : Str) : Bool :=
  pyIn (lowerStr displayName) (lowerStr t) &&
  decide (150 < t.length) && decide (t.length < 1000) &&
  !pyIn (str "founded in 1884") (lowerStr t) &&
  !((navWords.any (fun w => pyIn w (lowerStr t))) &&
    decide (2 < navWords.countP (fun w => pyIn w (lowerStr t))))

/-- The `for div in body.find_all('div')` loop with `break`: the first
qualifying div text wins. -/
def selectBlock (displayName : Str) (ts : List Str) : Option Str :=
  ts.find? (blockOk displayName)

/-- The separator class `[:\s]` of the trait regexes. -/
def isTraitSepCh (c : Char) : Bool := c = ':' || isSpaceCh c

/-- The tail `[:\s]+([^\.]+)` of each trait regex, matched at the current
position: a nonempty separator run, then a nonempty capture up to the next
period.  When the text after the greedy separator run starts with a period or
ends, the engine backtracks one separator character into the capture. -/
def matchSepCapture (s : Str) : Option Str :=
  let run := s.takeWhile isTraitSepCh
  let rest := s.drop run.length
  if run.isEmpty then none
  else
    let cap := rest.takeWhile (fun c => c != '.')
    if !cap.isEmpty then some cap
    else if 2 ≤ run.length then some [run.getLastD ' ']
    else none

/-- Match the literal words of a trait pattern, separated by `\s*`, then the
separator-and-capture tail. -/
def matchWords : List Str → Str → Option Str
  | [], s => matchSepCapture s
  | w :: ws, s =>
    if pyStartsWith s w then
      matchWords ws (if ws.isEmpty then s.drop w.length else (s.drop w.length).dropWhile isSpaceCh)
    else none

/-- `re.search`: try the pattern at every position, first hit wins. -/
def reSearchTrait (words : List Str) : Str → Option Str
  | [] => matchWords words []
  | c :: cs =>
    match matchWords words (c :: cs) with
    | some cap => some cap
    | none => reSearchTrait words cs

/-- The `trait_keywords` table of lines 343-354, in dict order; each pattern
`kw1\s*kw2[:\s]+([^\.]+)` is represented by its literal words. -/
def traitTable : List (Str × List Str) :=
  [(str "life span", [str "life", str "span"]),
   (str "weight", [str "weight"]),
   (str "height", [str "height"]),
   (str "size", [str "size"]),
   (str "temperament", [str "temperament"]),
   (str "personality", [str "personality"]),
   (str "energy level", [str "energy", str "level"]),
   (str "grooming", [str "grooming"]),
   (str "hypoallergenic", [str "hypoallergenic"]),
   (str "shedding", [str "shedding"])]

/-- The trait-extraction loop of lines 356-360 over the lowercased content:
store `match.group(1).strip()` for each pattern that matches. -/
def extractTraits (lowerContent : Str) : List (Str × Str) :=
  traitTable.foldl
    (fun acc p =>
      match reSearchTrait p.2 lowerContent with
      | some cap => acc ++ [(p.1, pyStripWs cap)]
      | none => acc)
    []

/-- What one call to `get_breed_full_profile` did: the returned value, whether
any network request was issued, and the profile (if any) successfully written
to the per-key cache file. -/
structure ProfileOutcome where
  result : Option BreedProfile
  netUsed : Bool
  written : Option BreedProfile
deriving DecidableEq

/-- Embeds `get_breed_full_profile` (lines 252-384): directory lookup, profile
cache probe, detail fetch, content-block selection, whitespace clean-up, trait
extraction, profile assembly, best-effort cache write. -/
def getBreedFullProfile (env : Env) (breed_name : Str) :
    Except ScrapeErr ProfileOutcome :=
  match getBreedList env with
  | .error e => .error e
  | .ok bl =>
    match dirLookup bl.1 breed_name with
    | none => .ok ⟨none, bl.2, none⟩
    | some info =>
      match env.profileCache with
      | some (some cached) => .ok ⟨some cached, bl.2, none⟩
      | _ =>
        match env.detailPage with
        | none => .ok ⟨none, true, none⟩
        | some pg =>
          let page_title := pg.h1.getD info.display_name
          let full_content := pyCleanWs ((selectBlock info.display_name pg.divTexts).getD [])
          let profile : BreedProfile :=
            ⟨info.display_name, info.akc_url, page_title, full_content,
             extractTraits (lowerStr full_content), env.now⟩
          .ok ⟨some profile, true, if env.profileWriteOk then some profile else none⟩

/-! ### Spec-side definitions

The following definitions transcribe claim statements (not the source); each
is compared against the corresponding source-derived definition above. -/

/-- Remove one trailing slash, as claim C2 words it ("after removing a
trailing slash"). -/
def removeOneTrailingSlash (s : Str) : Str :=
  if s.getLast? = some '/' then s.dropLast else s

/-- Claim C2's acceptance condition, word for word: the URL path after
removing a trailing slash is `/dog-breeds/<slug>` with a single segment, and
the lowercased slug is not excluded, not purely numeric, does not begin with
"page", has only `[a-z0-9-]` characters, and has length at least 3. -/
def claimValidBreedUrl (href : Str) : Bool :=
  let path := removeOneTrailingSlash (parsePath href)
  let slugRaw := path.drop 12
  pyStartsWith path dogBreedsSeg &&
  (!slugRaw.isEmpty && !(decide ('/' ∈ slugRaw)) &&
   (let slug := lowerStr slugRaw
    !(decide (slug ∈ EXCLUDED_SLUGS)) &&
    (!(pyIsDigit slug || pyStartsWith slug (str "page")) &&
     (slugRegex slug && decide (3 ≤ slug.length)))))

/-- Claim C2 as amended: all trailing slashes are removed from the path, and
the slug is lowercased and then stripped of leading/trailing hyphens before
the five slug checks are applied. -/
def amendedValidBreedUrl (href : Str) : Bool :=
  let path := rstripSlashes (parsePath href)
  let slug := stripHyphens (lowerStr (path.drop 12))
  breedPathRegex path &&
  (!(decide (slug ∈ EXCLUDED_SLUGS)) &&
   (!(pyIsDigit slug || pyStartsWith slug (str "page")) &&
    (slugRegex slug && decide (3 ≤ slug.length))))

/-- The slug of a validated breed URL, as the spec understands it: the single
path segment after the breeds-index segment. -/
def slugOfHref (href : Str) : Str :=
  (rstripSlashes (parsePath href)).drop 12

/-- Claim C9's derived display name: the slug with hyphens replaced by spaces,
then title-cased. -/
def claimFallbackName (href : Str) : Str :=
  pyTitle ((slugOfHref href).map hyphenToSpace)

/-- Claim C5's relation on display strings: same length, and at each position
the characters differ only by case or are a hyphen-versus-space pair. -/
def caseHyphenEquiv : Str → Str → Bool
  | [], [] => true
  | a :: s, b :: t =>
    (decide (toLowerCh a = toLowerCh b) ||
      ((decide (a = '-') || decide (a = ' ')) && (decide (b = '-') || decide (b = ' ')))) &&
    caseHyphenEquiv s t
  | _, _ => false

/-- Claim C10's invariant on a directory. -/
def keysNonempty (m : Directory) : Prop := ∀ e ∈ m, e.1 ≠ []

/-! ### Concrete inputs for counterexamples and witnesses -/

/-- Two accepted links with distinct URLs whose display names normalize to
the same key `shiba_inu`. -/
def collisionPages : List (Option (List (Str × Str))) :=
  [some [(str "Shiba Inu", str "/dog-breeds/shiba-inu/"),
         (str "SHIBA-INU", str "/dog-breeds/shiba-inu-2/")]]

/-- One page feeding the same URL twice through two link-text variants. -/
def sameUrlPages : List (Option (List (Str × Str))) :=
  [some [(str "Golden Retriever", str "/dog-breeds/golden-retriever/"),
         (str "golden-retriever", str "/dog-breeds/golden-retriever/")]]

/-- One page with one accepted link. -/
def akitaPages : List (Option (List (Str × Str))) :=
  [some [(str "Akita", str "/dog-breeds/akita/")]]

/-- The directory `akitaPages` produces. -/
def akitaDir : Directory :=
  [(str "akita", ⟨str "Akita", str "https://www.akc.org/dog-breeds/akita/"⟩)]

/-- A div text that escapes the mission-statement check because the marker
phrase carries a double space, which the later whitespace collapse turns into
the single-space marker: 157 characters, contains the breed name. -/
def doubleSpaceMissionDiv : Str :=
  str "Shiba Inu founded in  1884 " ++ List.replicate 130 'a'

/-- A div text of 159 characters whose whitespace collapse shrinks to the
9-character content "Shiba Inu". -/
def padDiv : Str := str "Shiba Inu" ++ List.replicate 150 ' '

/-- A well-behaved 155-character div text without the marker phrase. -/
def goodDiv : Str := str "Shiba Inu " ++ List.replicate 145 'b'

def entryShiba : BreedEntry :=
  ⟨str "Shiba Inu", str "https://www.akc.org/dog-breeds/shiba-inu/"⟩

def shibaDir : Directory := [(str "shiba_inu", entryShiba)]

/-- Environment for C3's counterexample: cached directory, cold profile
cache, detail page whose only div is `doubleSpaceMissionDiv`. -/
def envMission : Env :=
  ⟨some shibaDir, [], true, none, some ⟨some (str "Shiba Inu"), [doubleSpaceMissionDiv]⟩,
   true, str "2024-01-01 00:00:00"⟩

/-- Environment for C4's counterexample: detail page whose only div is
`padDiv`. -/
def envPad : Env :=
  ⟨some shibaDir, [], true, none, some ⟨some (str "Shiba Inu"), [padDiv]⟩,
   true, str "2024-01-01 00:00:00"⟩

/-- Environment for C6's counterexample: cold directory cache, a page that
yields a nonempty directory, and a failing breed-list cache write. -/
def envListWriteFail : Env :=
  ⟨none, akitaPages, false, none, none, true, str "2024-01-01 00:00:00"⟩

/-- A parseable cached profile. -/
def cachedProfileX : BreedProfile :=
  ⟨str "Shiba Inu", str "https://www.akc.org/dog-breeds/shiba-inu/",
   str "Shiba Inu", str "cached text", [], str "2023-12-31 00:00:00"⟩

/-- Environment for C7's counterexample: the profile cache for the requested
key exists and parses, but the key is absent from the directory. -/
def envAbsentKey : Env :=
  ⟨some akitaDir, [], true, some (some cachedProfileX), none, true,
   str "2024-01-01 00:00:00"⟩

/-- Environment for C8's counterexample: cold directory cache and a failing
breed-list cache write, so `get_breed_list` raises inside
`get_breed_full_profile`, outside the latter's try block. -/
def envRaises : Env :=
  ⟨none, [some [(str "Shiba Inu", str "/dog-breeds/shiba-inu/")]], false,
   none, none, true, str "2024-01-01 00:00:00"⟩

/-- Environment for C7's witness: warm directory cache and warm, parseable
profile cache. -/
def envWarm : Env :=
  ⟨some shibaDir, [], true, some (some cachedProfileX),
   some ⟨some (str "Shiba Inu"), [goodDiv]⟩, true, str "2024-01-01 00:00:00"⟩

/-- Environment with warm directory cache and a corrupt profile cache file. -/
def envCorruptProfile : Env :=
  ⟨some shibaDir, [], true, some none,
   some ⟨some (str "Shiba Inu"), [goodDiv]⟩, true, str "2024-01-01 00:00:00"⟩

/-- Environment with warm directory cache and a failing detail-page fetch. -/
def envFetchFail : Env :=
  ⟨some shibaDir, [], true, none, none, true, str "2024-01-01 00:00:00"⟩

/-! ### Helper lemmas -/

theorem rstripWhen_pref (p : Char → Bool) (s : Str) : rstripWhen p s <+: s := by
  have h := List.dropWhile_suffix (l := s.reverse) p
  exact List.reverse_suffix.mp (by simpa [rstripWhen] using h)

theorem stripScheme_suffix (s : Str) : stripScheme s <:+ s := by
  unfold stripScheme
  split
  · exact List.drop_suffix _ s
  · exact List.suffix_refl s

theorem stripNetloc_suffix (s : Str) : stripNetloc s <:+ s := by
  unfold stripNetloc
  split
  · rename_i rest _
    exact (List.dropWhile_suffix _).trans ⟨['/', '/'], rfl⟩
  · exact List.suffix_refl s

theorem parsePath_within (href : Str) : parsePath href <:+: href := by
  have h1 : (href.takeWhile (fun c => c != '#')).takeWhile (fun c => c != '?') <+: href :=
    (List.takeWhile_prefix _).trans (List.takeWhile_prefix _)
  have h2 : parsePath href <:+ (href.takeWhile (fun c => c != '#')).takeWhile (fun c => c != '?') :=
    (stripNetloc_suffix _).trans (stripScheme_suffix _)
  exact h2.isInfix.trans h1.isInfix

theorem pysplit_of_not_mem {sep : Char} {l : Str} (h : sep ∉ l) : pysplit sep l = [l] := by
  induction l with
  | nil => rfl
  | cons c cs ih =>
    have hc : ¬c = sep := fun hcs => h (hcs ▸ List.mem_cons_self c cs)
    have ih2 := ih (fun hm => h (List.mem_cons_of_mem c hm))
    simp [pysplit, hc, ih2]

theorem pysplit_cons_sep (sep : Char) (l : Str) :
    pysplit sep (sep :: l) = [] :: pysplit sep l := by
  simp [pysplit]

theorem pysplit_append {sep : Char} {l₁ : Str} (l₂ : Str) (h : sep ∉ l₁) :
    pysplit sep (l₁ ++ sep :: l₂) = l₁ :: pysplit sep l₂ := by
  induction l₁ with
  | nil => simp [pysplit]
  | cons c cs ih =>
    have hc : ¬c = sep := fun hcs => h (hcs ▸ List.mem_cons_self c cs)
    have ih2 := ih (fun hm => h (List.mem_cons_of_mem c hm))
    simp [pysplit, hc, ih2]

theorem breedPathRegex_decomp {p : Str} (h : breedPathRegex p = true) :
    ∃ rest : Str, rest ≠ [] ∧ '/' ∉ rest ∧ p = dogBreedsSeg ++ rest := by
  unfold breedPathRegex at h
  rw [Bool.and_eq_true, Bool.and_eq_true] at h
  obtain ⟨hpre, hne, hns⟩ := h
  obtain ⟨t, ht⟩ := of_decide_eq_true hpre
  refine ⟨p.drop 12, ?_, ?_, ?_⟩
  · intro hnil
    rw [hnil] at hne
    simp at hne
  · intro hm
    rw [Bool.not_eq_true'] at hns
    exact of_decide_eq_false hns hm
  · have hlen : dogBreedsSeg.length = 12 := rfl
    rw [← ht, ← hlen, List.drop_left]

theorem regex_path_facts {href : Str}
    (h : breedPathRegex (rstripSlashes (parsePath href)) = true) :
    pyIn dogBreedsSeg href = true ∧ href.isEmpty = false := by
  obtain ⟨rest, hne, hns, hp⟩ := breedPathRegex_decomp h
  have hpref : dogBreedsSeg <+: rstripSlashes (parsePath href) := ⟨rest, hp.symm⟩
  have hinf : dogBreedsSeg <:+: href :=
    ((hpref.trans (rstripWhen_pref _ _)).isInfix).trans (parsePath_within href)
  refine ⟨decide_eq_true hinf, ?_⟩
  rcases href with _ | ⟨c, cs⟩
  · exfalso
    have hlen := hinf.length_le
    simp [dogBreedsSeg, str] at hlen
  · rfl

theorem regex_split {p rest : Str} (hns : '/' ∉ rest)
    (hp : p = dogBreedsSeg ++ rest) :
    pysplit '/' p = [[], str "dog-breeds", rest] := by
  have hp2 : p = '/' :: (str "dog-breeds" ++ '/' :: rest) := by
    rw [hp]; rfl
  rw [hp2]
  have h1 : pysplit '/' (str "dog-breeds" ++ '/' :: rest) =
      str "dog-breeds" :: pysplit '/' rest :=
    pysplit_append rest (by decide)
  have h2 : pysplit '/' rest = [rest] := pysplit_of_not_mem hns
  simp [pysplit, h1, h2]
  rfl

theorem slugChecks_if_eq (slug : Str) :
    (if decide (slug ∈ EXCLUDED_SLUGS) then false
     else if pyIsDigit slug || pyStartsWith slug (str "page") then false
     else if !slugRegex slug then false
     else if slug.length < 3 then false
     else true)
    = (!(decide (slug ∈ EXCLUDED_SLUGS)) &&
       (!(pyIsDigit slug || pyStartsWith slug (str "page")) &&
        (slugRegex slug && decide (3 ≤ slug.length)))) := by
  by_cases h1 : slug ∈ EXCLUDED_SLUGS <;>
    by_cases h2 : (pyIsDigit slug || pyStartsWith slug (str "page")) = true <;>
    by_cases h3 : slugRegex slug = true <;>
    by_cases h4 : slug.length < 3 <;>
    simp [h1, h2, h3, h4, Nat.not_lt] <;> omega

theorem isValid_eq_amended (href : Str) :
    isValidBreedUrl href = amendedValidBreedUrl href := by
  by_cases hreg : breedPathRegex (rstripSlashes (parsePath href)) = true
  · obtain ⟨hin, hhe⟩ := regex_path_facts hreg
    obtain ⟨rest, hne, hns, hp⟩ := breedPathRegex_decomp hreg
    have hsplit := regex_split hns hp
    have hdrop : (rstripSlashes (parsePath href)).drop 12 = rest := by
      have hlen : dogBreedsSeg.length = 12 := rfl
      rw [hp, ← hlen, List.drop_left]
    simp only [isValidBreedUrl, amendedValidBreedUrl, hhe, hin, hreg, hsplit, hdrop,
      Bool.not_true, Bool.or_false, Bool.false_or, Bool.true_and, if_false,
      Bool.false_eq_true, if_true]
    rw [slugChecks_if_eq]
    simp
  · have hregf : breedPathRegex (rstripSlashes (parsePath href)) = false := by
      simpa using hreg
    by_cases hpre : (href.isEmpty || !pyIn dogBreedsSeg href) = true
    · simp [isValidBreedUrl, amendedValidBreedUrl, hpre, hregf]
    · simp [isValidBreedUrl, amendedValidBreedUrl, hregf, hpre]

theorem collapse_equiv : ∀ s t : Str, caseHyphenEquiv s t = true → ∀ flag : Bool,
    collapseSepsAux flag ((lowerStr s).filter keepCh) =
      collapseSepsAux flag ((lowerStr t).filter keepCh)
  | [], [], _, _ => rfl
  | [], _ :: _, h, _ => by simp [caseHyphenEquiv] at h
  | _ :: _, [], h, _ => by simp [caseHyphenEquiv] at h
  | a :: s, b :: t, h, flag => by
    rw [caseHyphenEquiv, Bool.and_eq_true] at h
    obtain ⟨hd, htl⟩ := h
    rw [Bool.or_eq_true] at hd
    have ih := collapse_equiv s t htl
    rcases hd with heq | hsep
    · have heq2 : toLowerCh a = toLowerCh b := of_decide_eq_true heq
      show collapseSepsAux flag ((toLowerCh a :: lowerStr s).filter keepCh) =
        collapseSepsAux flag ((toLowerCh b :: lowerStr t).filter keepCh)
      rw [← heq2]
      by_cases hk : keepCh (toLowerCh a) = true
      · rw [List.filter_cons_of_pos hk, List.filter_cons_of_pos hk]
        by_cases hs : sepCh (toLowerCh a) = true
        · cases flag
          · simp only [collapseSepsAux, hs, if_true, Bool.false_eq_true, if_false]
            rw [ih true]
          · simp only [collapseSepsAux, hs, if_true]
            rw [ih true]
        · have hs2 : sepCh (toLowerCh a) = false := by simpa using hs
          simp only [collapseSepsAux, hs2, Bool.false_eq_true, if_false]
          rw [ih false]
      · have hk2 : keepCh (toLowerCh a) = false := by simpa using hk
        rw [List.filter_cons_of_neg (by simp [hk2]), List.filter_cons_of_neg (by simp [hk2])]
        exact ih flag
    · rw [Bool.and_eq_true, Bool.or_eq_true, Bool.or_eq_true] at hsep
      obtain ⟨ha, hb⟩ := hsep
      have ha2 : a = '-' ∨ a = ' ' := by
        rcases ha with h1 | h1
        · exact Or.inl (of_decide_eq_true h1)
        · exact Or.inr (of_decide_eq_true h1)
      have hb2 : b = '-' ∨ b = ' ' := by
        rcases hb with h1 | h1
        · exact Or.inl (of_decide_eq_true h1)
        · exact Or.inr (of_decide_eq_true h1)
      show collapseSepsAux flag ((toLowerCh a :: lowerStr s).filter keepCh) =
        collapseSepsAux flag ((toLowerCh b :: lowerStr t).filter keepCh)
      have hstep : ∀ c : Char, c = '-' ∨ c = ' ' → ∀ l : Str,
          collapseSepsAux flag ((toLowerCh c :: l).filter keepCh) =
            (if flag then collapseSepsAux true (l.filter keepCh)
             else '_' :: collapseSepsAux true (l.filter keepCh)) := by
        intro c hc l
        have hsep2 : sepCh (toLowerCh c) = true := by
          rcases hc with rfl | rfl <;> decide
        have hkeep : keepCh (toLowerCh c) = true := by
          rcases hc with rfl | rfl <;> decide
        rw [List.filter_cons_of_pos hkeep]
        cases flag
        · simp only [collapseSepsAux, hsep2, if_true, Bool.false_eq_true, if_false]
        · simp only [collapseSepsAux, hsep2, if_true]
      rw [hstep a ha2 (lowerStr s), hstep b hb2 (lowerStr t), ih true]

theorem insertBreed_keys {m : Directory} {dn fu : Str} {m' : Directory}
    (h : insertBreed m dn fu = .ok m') (hm : keysNonempty m) : keysNonempty m' := by
  simp only [insertBreed] at h
  split at h
  · cases h
    exact hm
  · rename_i hnorm
    split at h
    · cases h
      intro e he
      rcases List.mem_append.mp he with hin | hin
      · exact hm e hin
      · rcases List.mem_singleton.mp hin with rfl
        intro hnil
        have hnil2 : normalize_breed_name dn = [] := hnil
        rw [hnil2] at hnorm
        simp at hnorm
    · cases h

theorem stepLink_keys {seen : List Str} {m : Directory} {lk : Str × Str}
    {s' : List Str} {m' : Directory}
    (h : stepLink seen m lk = .ok (s', m')) (hm : keysNonempty m) : keysNonempty m' := by
  simp only [stepLink] at h
  split at h
  · cases h
    exact hm
  · split at h
    · cases h
    · rename_i m2 hins
      cases h
      exact insertBreed_keys hins hm

theorem processLinks_keys : ∀ (links : List (Str × Str)) (seen : List Str) (m : Directory)
    (s' : List Str) (m' : Directory),
    processLinks seen m links = .ok (s', m') → keysNonempty m → keysNonempty m'
  | [], seen, m, s', m', h, hm => by
    simp only [processLinks] at h
    cases h
    exact hm
  | lk :: rest, seen, m, s', m', h, hm => by
    simp only [processLinks] at h
    split at h
    · cases h
    · rename_i sm hst
      exact processLinks_keys rest sm.1 sm.2 s' m' h (stepLink_keys hst hm)

theorem processPages_keys : ∀ (pages : List (Option (List (Str × Str))))
    (seen : List Str) (m : Directory) (s' : List Str) (m' : Directory),
    processPages seen m pages = .ok (s', m') → keysNonempty m → keysNonempty m'
  | [], seen, m, s', m', h, hm => by
    simp only [processPages] at h
    cases h
    exact hm
  | none :: rest, seen, m, s', m', h, hm => by
    simp only [processPages] at h
    exact processPages_keys rest seen m s' m' h hm
  | some links :: rest, seen, m, s', m', h, hm => by
    simp only [processPages] at h
    split at h
    · cases h
    · rename_i sm hpl
      exact processPages_keys rest sm.1 sm.2 s' m' h
        (processLinks_keys (pageCandidates links) seen m sm.1 sm.2 hpl hm)

theorem collapseWsAux_length_le : ∀ (flag : Bool) (s : Str),
    (collapseWsAux flag s).length ≤ s.length
  | _, [] => Nat.le_refl 0
  | flag, c :: cs => by
    by_cases hs : isSpaceCh c = true
    · cases flag
      · simp only [collapseWsAux, hs, if_true, Bool.false_eq_true, if_false, List.length_cons]
        exact Nat.succ_le_succ (collapseWsAux_length_le true cs)
      · simp only [collapseWsAux, hs, if_true, List.length_cons]
        exact Nat.le_succ_of_le (collapseWsAux_length_le true cs)
    · have hs2 : isSpaceCh c = false := by simpa using hs
      simp only [collapseWsAux, hs2, Bool.false_eq_true, if_false, List.length_cons]
      exact Nat.succ_le_succ (collapseWsAux_length_le false cs)

theorem stripWhen_length_le (p : Char → Bool) (s : Str) :
    (stripWhen p s).length ≤ s.length := by
  have h1 : (rstripWhen p (lstripWhen p s)).length ≤ (lstripWhen p s).length :=
    (rstripWhen_pref p _).length_le
  have h2 : (lstripWhen p s).length ≤ s.length := (List.dropWhile_suffix p).length_le
  exact Nat.le_trans h1 h2

theorem pyCleanWs_length_le (s : Str) : (pyCleanWs s).length ≤ s.length :=
  Nat.le_trans (stripWhen_length_le isSpaceCh _) (collapseWsAux_length_le false s)

theorem rstripSlashes_append_slash (l : Str) :
    rstripSlashes (l ++ ['/']) = rstripSlashes l := by
  simp [rstripSlashes, rstripWhen, List.dropWhile]

theorem rstripSlashes_no_slash_end {pre slug : Str} (hne : slug ≠ []) (hns : '/' ∉ slug) :
    rstripSlashes (pre ++ slug) = pre ++ slug := by
  rcases hrev : slug.reverse with _ | ⟨c, rest⟩
  · exact absurd (List.reverse_eq_nil_iff.mp hrev) hne
  · have hc : c ∈ slug := by
      rw [← List.mem_reverse, hrev]
      exact List.mem_cons_self c rest
    have hcne : (c = '/') = False := by
      simp only [eq_iff_iff, iff_false]
      intro hcc
      exact hns (hcc ▸ hc)
    have hslug : slug = rest.reverse ++ [c] := by
      have h2 := congrArg List.reverse hrev
      simpa using h2
    simp [rstripSlashes, rstripWhen, List.reverse_append, hrev, List.dropWhile, hcne, hslug]

/-! ### Claim theorems -/

/-- Claim C1 (code bug): the claim says directory construction completes and,
on a key collision between two URL-distinct accepted links, keeps the entry
with the shorter display name.  The source instead evaluates
`len(existing['display_name'])` with `existing` never assigned, so the first
key collision raises `NameError`: this theorem evaluates the embedded code at
such an input.  The URL-based half of the claim does hold: feeding the same
URL via two link-text variants yields exactly one entry, keyed by the
first-inserted normalized name, because the duplicate is skipped before any
key collision can occur. -/
theorem C1_collision_raises_nameError :
    scrapeAllBreedPages collisionPages = .error .nameError ∧
    scrapeAllBreedPages sameUrlPages =
      .ok [(str "golden_retriever",
            ⟨str "Golden Retriever",
             str "https://www.akc.org/dog-breeds/golden-retriever/"⟩)] :=
  ⟨by rfl, by rfl⟩

/-- Claim C2 counterexample: for the href `/dog-breeds/ab-` the claim's
acceptance condition (lowercased slug `ab-`: length 3, valid characters, not
excluded, not numeric, not page-prefixed) says accept, but the validator
strips the trailing hyphen first and rejects the 2-character result. -/
theorem C2_counterexample :
    isValidBreedUrl (str "/dog-breeds/ab-") = false ∧
    claimValidBreedUrl (str "/dog-breeds/ab-") = true :=
  ⟨by rfl, by rfl⟩

/-- Claim C2 as amended: the validator accepts an href exactly when its URL
path with all trailing slashes removed is `/dog-breeds/<slug>` with a single
segment, and the slug, lowercased and then stripped of leading and trailing
hyphens, is not excluded, not purely numeric, not `page`-prefixed, contains
only `[a-z0-9-]`, and has length at least 3. -/
theorem C2_amended_validator_equivalence :
    ∀ href : Str, isValidBreedUrl href = amendedValidBreedUrl href :=
  isValid_eq_amended

set_option maxRecDepth 20000 in
/-- Claim C3 counterexample: a candidate block whose marker phrase carries a
double space is not skipped, and the whitespace collapse of line 337 then
produces a returned `content` that does contain `founded in 1884`. -/
theorem C3_counterexample :
    (getBreedFullProfile envMission (str "shiba_inu")).toOption.bind
      (fun r => r.result.map (fun p => pyIn (str "founded in 1884") (lowerStr p.content)))
      = some true := by rfl

/-- Witness for C2's amended theorem at a concrete href. -/
theorem C2_witness :
    isValidBreedUrl (str "/dog-breeds/shiba-inu/") =
      amendedValidBreedUrl (str "/dog-breeds/shiba-inu/") :=
  C2_amended_validator_equivalence (str "/dog-breeds/shiba-inu/")

/-- Claim C3 as amended: every candidate block whose text literally contains
the marker phrase (case-insensitively) is skipped during content-block
selection, so the selected block's raw text never contains the phrase; the
whitespace collapse applied afterwards may reintroduce it. -/
theorem C3_amended_marker_blocks_skipped :
    ∀ (dn : Str) (ts : List Str) (t : Str), selectBlock dn ts = some t →
      pyIn (str "founded in 1884") (lowerStr t) = false := by
  intro dn ts t h
  have hp := List.find?_some h
  simp only [blockOk, Bool.and_eq_true] at hp
  obtain ⟨⟨⟨⟨h1, h2⟩, h3⟩, h4⟩, h5⟩ := hp
  simpa using h4

set_option maxRecDepth 20000 in
/-- Witness for C3's amended theorem at a concrete selection. -/
theorem C3_witness :
    pyIn (str "founded in 1884") (lowerStr goodDiv) = false :=
  C3_amended_marker_blocks_skipped (str "Shiba Inu") [goodDiv] goodDiv (by rfl)

set_option maxRecDepth 20000 in
/-- Claim C4 counterexample: a 159-character block of mostly whitespace is
selected, and after whitespace collapsing the returned non-empty `content`
has length 9, far below the 150-character minimum the claim promises. -/
theorem C4_counterexample :
    (getBreedFullProfile envPad (str "shiba_inu")).toOption.bind
      (fun r => r.result.map
        (fun p => !p.content.isEmpty && decide (p.content.length < 150)))
      = some true := by rfl

/-- Claim C4 as amended: a block is selected only when its raw text length is
strictly between 150 and 1000 (so a block at or below the 150-character
minimum is never selected), and the returned content, being a whitespace
collapse of the selected block, is never longer than it — so never reaches
1000 — though it may end up shorter than 150. -/
theorem C4_amended_selected_block_bounds :
    ∀ (dn : Str) (ts : List Str) (t : Str), selectBlock dn ts = some t →
      150 < t.length ∧ t.length < 1000 ∧ (pyCleanWs t).length ≤ t.length := by
  intro dn ts t h
  have hp := List.find?_some h
  simp only [blockOk, Bool.and_eq_true] at hp
  obtain ⟨⟨⟨⟨h1, h2⟩, h3⟩, h4⟩, h5⟩ := hp
  exact ⟨of_decide_eq_true h2, of_decide_eq_true h3, pyCleanWs_length_le t⟩

set_option maxRecDepth 20000 in
/-- Witness for C4's amended theorem at a concrete selection. -/
theorem C4_witness :
    150 < goodDiv.length ∧ goodDiv.length < 1000 ∧
      (pyCleanWs goodDiv).length ≤ goodDiv.length :=
  C4_amended_selected_block_bounds (str "Shiba Inu") [goodDiv] goodDiv (by rfl)

/-- Claim C5: `normalize_breed_name` is a pure function (a Lean function by
construction), two display strings that differ only by letter case or by
hyphen-versus-space choices normalize to the same key, and both
"Shiba Inu" and "shiba-inu" normalize to `shiba_inu`. -/
theorem C5_normalize_invariance :
    (∀ s t : Str, caseHyphenEquiv s t = true →
        normalize_breed_name s = normalize_breed_name t) ∧
    normalize_breed_name (str "Shiba Inu") = str "shiba_inu" ∧
    normalize_breed_name (str "shiba-inu") = str "shiba_inu" := by
  refine ⟨fun s t h => ?_, by rfl, by rfl⟩
  unfold normalize_breed_name collapseSeps
  rw [collapse_equiv s t h false]

/-- Witness for C5 at the claim's own example pair. -/
theorem C5_witness :
    caseHyphenEquiv (str "Shiba Inu") (str "shiba-inu") = true ∧
    normalize_breed_name (str "Shiba Inu") = normalize_breed_name (str "shiba-inu") :=
  ⟨by rfl, C5_normalize_invariance.1 _ _ (by rfl)⟩

/-- Claim C6 counterexample: with a cold directory cache, a successful scrape
and a failing breed-list cache write, `get_breed_list` raises instead of
returning the computed directory — the write of line 245 is not guarded. -/
theorem C6_counterexample :
    getBreedList envListWriteFail = .error .writeError := by rfl

/-- Claim C6 as amended: only the profile-cache write is best-effort — the
returned value and network behaviour of `get_breed_full_profile` do not
depend on whether the profile-cache write succeeds — while a failure of the
unguarded directory-cache write in `get_breed_list` propagates as an
exception. -/
theorem C6_amended_cache_write_bestEffort :
    (∀ (env : Env) (k : Str) (b : Bool),
        (getBreedFullProfile { env with profileWriteOk := b } k).map
            (fun r => (r.result, r.netUsed)) =
          (getBreedFullProfile env k).map (fun r => (r.result, r.netUsed))) ∧
    (∀ env : Env, env.listCache = none → env.listWriteOk = false →
        ∀ m : Directory, scrapeAllBreedPages env.pages = .ok m → m.isEmpty = false →
          getBreedList env = .error .writeError) := by
  constructor
  · intro env k b
    obtain ⟨lc, pgs, lw, pc, dp, pw, nw⟩ := env
    have hgl : getBreedList (Env.mk lc pgs lw pc dp b nw) =
        getBreedList (Env.mk lc pgs lw pc dp pw nw) := rfl
    simp only [getBreedFullProfile, hgl]
    generalize getBreedList (Env.mk lc pgs lw pc dp pw nw) = res
    cases res with
    | error e => rfl
    | ok bl =>
      dsimp only
      cases dirLookup bl.1 k with
      | none => rfl
      | some info =>
        cases pc with
        | none =>
          cases dp with
          | none => rfl
          | some pg => rfl
        | some c =>
          cases c with
          | none =>
            cases dp with
            | none => rfl
            | some pg => rfl
          | some cached => rfl
  · intro env hlc hlw m hscrape hne
    simp only [getBreedList, hlc, hscrape, hne, hlw]
    simp [hne]

/-- Witness for C6's amended theorem at concrete environments. -/
theorem C6_witness :
    ((getBreedFullProfile { envWarm with profileWriteOk := false } (str "shiba_inu")).map
        (fun r => (r.result, r.netUsed)) =
      (getBreedFullProfile envWarm (str "shiba_inu")).map
        (fun r => (r.result, r.netUsed))) ∧
    getBreedList envListWriteFail = .error .writeError :=
  ⟨C6_amended_cache_write_bestEffort.1 envWarm (str "shiba_inu") false,
   C6_amended_cache_write_bestEffort.2 envListWriteFail rfl rfl akitaDir (by rfl) (by rfl)⟩

/-- Claim C7 counterexample: the profile cache for key `shiba_inu` exists and
parses, yet `get_breed_full_profile` returns an absent result, because the
key is looked up in the directory first and is not there. -/
theorem C7_counterexample :
    envAbsentKey.profileCache = some (some cachedProfileX) ∧
    getBreedFullProfile envAbsentKey (str "shiba_inu") = .ok ⟨none, false, none⟩ :=
  ⟨rfl, by rfl⟩

/-- Claim C7 as amended: for a key present in the directory and a readable
directory cache, a parseable profile-cache file is returned as-is with no
network request, while a missing or unparseable profile-cache file triggers a
fresh detail-page fetch whose successful result is also what gets written to
the cache file (overwriting a corrupt one) when the write succeeds. -/
theorem C7_amended_profile_cache_semantics :
    (∀ (env : Env) (k : Str) (d : Directory) (info : BreedEntry) (p : BreedProfile),
        env.listCache = some d → dirLookup d k = some info →
        env.profileCache = some (some p) →
        getBreedFullProfile env k = .ok ⟨some p, false, none⟩) ∧
    (∀ (env : Env) (k : Str) (d : Directory) (info : BreedEntry) (pg : FetchedPage),
        env.listCache = some d → dirLookup d k = some info →
        (env.profileCache = none ∨ env.profileCache = some none) →
        env.detailPage = some pg →
        ∃ prof : BreedProfile, getBreedFullProfile env k =
          .ok ⟨some prof, true, if env.profileWriteOk then some prof else none⟩) := by
  constructor
  · intro env k d info p hlc hlook hpc
    simp [getBreedFullProfile, getBreedList, hlc, hlook, hpc]
  · intro env k d info pg hlc hlook hpc hdp
    refine ⟨⟨info.display_name, info.akc_url, pg.h1.getD info.display_name,
      pyCleanWs ((selectBlock info.display_name pg.divTexts).getD []),
      extractTraits (lowerStr (pyCleanWs ((selectBlock info.display_name pg.divTexts).getD []))),
      env.now⟩, ?_⟩
    rcases hpc with hpc | hpc
    · simp [getBreedFullProfile, getBreedList, hlc, hlook, hpc, hdp]
    · simp [getBreedFullProfile, getBreedList, hlc, hlook, hpc, hdp]

/-- Witness for C7's amended theorem at concrete environments. -/
theorem C7_witness :
    getBreedFullProfile envWarm (str "shiba_inu") = .ok ⟨some cachedProfileX, false, none⟩ ∧
    (∃ prof : BreedProfile, getBreedFullProfile envCorruptProfile (str "shiba_inu") =
      .ok ⟨some prof, true,
        if envCorruptProfile.profileWriteOk then some prof else none⟩) :=
  ⟨C7_amended_profile_cache_semantics.1 envWarm (str "shiba_inu") shibaDir entryShiba
      cachedProfileX rfl (by rfl) rfl,
   C7_amended_profile_cache_semantics.2 envCorruptProfile (str "shiba_inu") shibaDir
      entryShiba ⟨some (str "Shiba Inu"), [goodDiv]⟩ rfl (by rfl) (Or.inr rfl) rfl⟩

/-- Claim C8 counterexample: with a cold directory cache and a failing
breed-list cache write, the exception raised inside `get_breed_list`
propagates out of `get_breed_full_profile` (the call at line 266 is outside
the try block), so profile extraction does raise to its caller. -/
theorem C8_counterexample :
    getBreedFullProfile envRaises (str "shiba_inu") = .error .writeError := by rfl

/-- Claim C8 as amended: when the directory comes from a readable cache (so
`get_breed_list` cannot raise), `get_breed_full_profile` never raises: it
returns a value in every case, an absent key yields an explicit absent
result, and a failed detail-page fetch on a cold profile cache also yields an
absent result. -/
theorem C8_amended_no_raise_within_extraction :
    ∀ (env : Env) (k : Str) (d : Directory), env.listCache = some d →
      (∃ r : ProfileOutcome, getBreedFullProfile env k = .ok r) ∧
      (dirLookup d k = none → getBreedFullProfile env k = .ok ⟨none, false, none⟩) ∧
      (∀ info : BreedEntry, dirLookup d k = some info →
        (env.profileCache = none ∨ env.profileCache = some none) →
        env.detailPage = none → getBreedFullProfile env k = .ok ⟨none, true, none⟩) := by
  intro env k d hlc
  refine ⟨?_, ?_, ?_⟩
  · simp only [getBreedFullProfile, getBreedList, hlc]
    cases dirLookup d k with
    | none => exact ⟨_, rfl⟩
    | some info =>
      cases hpc : env.profileCache with
      | none =>
        cases hdp : env.detailPage with
        | none => exact ⟨_, rfl⟩
        | some pg => exact ⟨_, rfl⟩
      | some c =>
        cases c with
        | none =>
          cases hdp : env.detailPage with
          | none => exact ⟨_, rfl⟩
          | some pg => exact ⟨_, rfl⟩
        | some cached => exact ⟨_, rfl⟩
  · intro hlook
    simp [getBreedFullProfile, getBreedList, hlc, hlook]
  · intro info hlook hpc hdp
    rcases hpc with hpc | hpc
    · simp [getBreedFullProfile, getBreedList, hlc, hlook, hpc, hdp]
    · simp [getBreedFullProfile, getBreedList, hlc, hlook, hpc, hdp]

/-- Witness for C8's amended theorem at a concrete environment. -/
theorem C8_witness :
    (∃ r : ProfileOutcome, getBreedFullProfile envFetchFail (str "shiba_inu") = .ok r) ∧
    (dirLookup shibaDir (str "pug") = none →
      getBreedFullProfile envFetchFail (str "pug") = .ok ⟨none, false, none⟩) ∧
    (∀ info : BreedEntry, dirLookup shibaDir (str "shiba_inu") = some info →
      (envFetchFail.profileCache = none ∨ envFetchFail.profileCache = some none) →
      envFetchFail.detailPage = none →
      getBreedFullProfile envFetchFail (str "shiba_inu") = .ok ⟨none, true, none⟩) :=
  ⟨(C8_amended_no_raise_within_extraction envFetchFail (str "shiba_inu") shibaDir rfl).1,
   (C8_amended_no_raise_within_extraction envFetchFail (str "pug") shibaDir rfl).2.1,
   (C8_amended_no_raise_within_extraction envFetchFail (str "shiba_inu") shibaDir rfl).2.2⟩

/-- Claim C9 counterexample: the accepted href `/dog-breeds/akita` (no
trailing slash) with empty link text produces the display name "Dog Breeds" —
the second-to-last path segment — not the title-cased slug "Akita" the claim
promises, and that wrong name flows into the directory entry. -/
theorem C9_counterexample :
    isValidBreedUrl (str "/dog-breeds/akita") = true ∧
    scrapeAllBreedPages [some [([], str "/dog-breeds/akita")]] =
      .ok [(str "dog_breeds",
            ⟨str "Dog Breeds", str "https://www.akc.org/dog-breeds/akita"⟩)] ∧
    claimFallbackName (str "/dog-breeds/akita") = str "Akita" ∧
    str "Dog Breeds" ≠ str "Akita" :=
  ⟨by rfl, by rfl, by rfl, by decide⟩

/-- Claim C9 as amended: for a link whose URL path is `/dog-breeds/<slug>`
followed by exactly one trailing slash, the empty-link-text fallback display
name equals the claim's title-cased slug (hyphens replaced by spaces, then
title-cased); without the trailing slash the code picks the second-to-last
segment instead. -/
theorem C9_amended_fallback_display :
    ∀ href slug : Str,
      parsePath href = dogBreedsSeg ++ slug ++ ['/'] → slug ≠ [] → '/' ∉ slug →
      fallbackDisplayName href = claimFallbackName href ∧
      claimFallbackName href = pyTitle (slug.map hyphenToSpace) := by
  intro href slug hp hne hns
  have hsplit : pysplit '/' (parsePath href) = [[], str "dog-breeds", slug, []] := by
    rw [hp]
    have hshape : dogBreedsSeg ++ slug ++ ['/'] =
        '/' :: (str "dog-breeds" ++ '/' :: (slug ++ '/' :: ([] : Str))) := by
      simp [dogBreedsSeg, str]
    rw [hshape]
    have hsegs : ('/' : Char) ∉ str "dog-breeds" := by decide
    rw [pysplit_cons_sep, pysplit_append _ hsegs, pysplit_append _ hns]
    rfl
  have hr : rstripSlashes (parsePath href) = dogBreedsSeg ++ slug := by
    rw [hp, rstripSlashes_append_slash, rstripSlashes_no_slash_end hne hns]
  have hdrop : slugOfHref href = slug := by
    have hlen : dogBreedsSeg.length = 12 := rfl
    rw [slugOfHref, hr, ← hlen, List.drop_left]
  constructor
  · simp only [fallbackDisplayName, claimFallbackName, hsplit, hdrop]
    rfl
  · rw [claimFallbackName, hdrop]

/-- Witness for C9's amended theorem at a concrete href. -/
theorem C9_witness :
    fallbackDisplayName (str "/dog-breeds/shiba-inu/") =
        claimFallbackName (str "/dog-breeds/shiba-inu/") ∧
    claimFallbackName (str "/dog-breeds/shiba-inu/") =
        pyTitle ((str "shiba-inu").map hyphenToSpace) :=
  C9_amended_fallback_display (str "/dog-breeds/shiba-inu/") (str "shiba-inu")
    (by rfl) (by decide) (by decide)

/-- Claim C10: every key of a directory returned by discovery is a non-empty
string — a candidate link whose display name normalizes to the empty string
is silently dropped before insertion. -/
theorem C10_directory_keys_nonempty :
    ∀ (pages : List (Option (List (Str × Str)))) (d : Directory),
      scrapeAllBreedPages pages = .ok d → ∀ e ∈ d, e.1 ≠ [] := by
  intro pages d h e he
  simp only [scrapeAllBreedPages] at h
  split at h
  · cases h
  · rename_i sm hpp
    cases h
    exact processPages_keys pages [] [] sm.1 sm.2 hpp
      (fun x hx => absurd hx (List.not_mem_nil x)) e he

/-- Witness for C10 at a concrete crawl. -/
theorem C10_witness : str "akita" ≠ ([] : Str) :=
  C10_directory_keys_nonempty akitaPages akitaDir (by rfl)
    (str "akita", ⟨str "Akita", str "https://www.akc.org/dog-breeds/akita/"⟩)
    (by decide)

end BreedAkc
